import Mathlib

/-!
Shallow embedding of the core of `txt_to_pandas_dataframe.py` from the
repository `ISIS-integrated-current-txt-file-to-pandas-database`.

Modelling conventions:
* A pandas dataframe row becomes a `Record`; the dataframe becomes a
  `List Record` in row order (the dataframe's positional index).
* Dates (`pandas.Timestamp` at day resolution) become `ℤ` day ordinals,
  with day 0 = 1970-01-01 (a Thursday, so Sundays are the days `≡ 3 [ZMOD 7]`).
* Floating point numbers become exact rationals `ℚ`.
* Python `None` results become `Option.none`; a raised Python exception
  (an `assert` failure in `data_integrity_check`, or a `TypeError` from
  applying `>`/`*` to `None`) becomes the `error` case of an `Except`.
-/

namespace BeamLog

/-- One row of the dataframe produced by `text_to_pandas_dataframe`:
the columns "Modified Julian day no.", "Date", the three
"Milliamp-hours (...)" columns and the three
"Cumulative milliamp-hours (...)" columns. -/
structure Record where
  julian : ℤ
  date : ℤ
  mah_sync : ℚ
  mah_ts1 : ℚ
  mah_ts2 : ℚ
  cum_sync : ℚ
  cum_ts1 : ℚ
  cum_ts2 : ℚ
deriving DecidableEq, Repr

/-- Column `Milliamp-hours (target)` of a row, i.e. the Python access
`row[f"Milliamp-hours ({target})"]` for the three valid targets. -/
def mahCol (target : String) (r : Record) : ℚ :=
  match target with
  | "Sync" => r.mah_sync
  | "TS-1" => r.mah_ts1
  | "TS-2" => r.mah_ts2
  | _ => 0

/-- Column `Cumulative milliamp-hours (target)` of a row. -/
def cumCol (target : String) (r : Record) : ℚ :=
  match target with
  | "Sync" => r.cum_sync
  | "TS-1" => r.cum_ts1
  | "TS-2" => r.cum_ts2
  | _ => 0

/-- Column access by full column name, `data[column].values`, as a list of
rationals (the julian-day integers are cast to ℚ; pandas holds every
numeric column as a float-valued series). -/
def getColumn (data : List Record) (column : String) : List ℚ :=
  match column with
  | "Modified Julian day no." => data.map (fun r => (r.julian : ℚ))
  | "Milliamp-hours (Sync)" => data.map Record.mah_sync
  | "Milliamp-hours (TS-1)" => data.map Record.mah_ts1
  | "Milliamp-hours (TS-2)" => data.map Record.mah_ts2
  | "Cumulative milliamp-hours (Sync)" => data.map Record.cum_sync
  | "Cumulative milliamp-hours (TS-1)" => data.map Record.cum_ts1
  | "Cumulative milliamp-hours (TS-2)" => data.map Record.cum_ts2
  | _ => []

/-- `pandas.Series.is_monotonic_increasing`: every element is `≤` its
successor (non-strict). -/
def nondecreasing : List ℚ → Bool
  | [] => true
  | [_] => true
  | a :: b :: t => decide (a ≤ b) && nondecreasing (b :: t)

/-- Helper for `cumsum`: running sums starting from an accumulator. -/
def cumsumFrom (acc : ℚ) : List ℚ → List ℚ
  | [] => []
  | x :: xs => (acc + x) :: cumsumFrom (acc + x) xs

/-- `pandas.Series.cumsum`: `cumsum [a, b, c] = [a, a+b, a+b+c]`. -/
def cumsum (l : List ℚ) : List ℚ := cumsumFrom 0 l

/-- `numpy.isclose a b` with the tolerances used at the call site in
`data_integrity_check`: the explicit `atol=0.1` together with numpy's
default relative tolerance `rtol=1e-5`, i.e.
`|a - b| <= atol + rtol * |b|`. -/
def isclose (a b atol rtol : ℚ) : Bool :=
  decide (|a - b| ≤ atol + rtol * |b|)

/-- The `AssertionError`s that `data_integrity_check` can raise, one
constructor per `assert` statement. -/
inductive IntegrityError where
  | notMonotonic (column : String)
  | cumulativeMismatch (target : String)
  | duplicateKey
deriving DecidableEq, Repr

/-- The `sorted_checks` list of `data_integrity_check`; the Sync and TS-1
cumulative columns are commented out in the source (04-Sep-2005 reset). -/
def sorted_checks : List String :=
  ["Modified Julian day no.", "Cumulative milliamp-hours (TS-2)"]

/-- The three channels whose cumulative consistency is checked. -/
def cumulativeTargets : List String := ["Sync", "TS-1", "TS-2"]

/-- The cumulative-consistency condition checked for one channel:
`isclose(data["Milliamp-hours (t)"].cumsum(), data["Cumulative milliamp-hours (t)"], atol=0.1).all()`. -/
def cumulativeOk (data : List Record) (target : String) : Bool :=
  ((cumsum (data.map (mahCol target))).zip (data.map (cumCol target))).all
    (fun p => isclose p.1 p.2 (1 / 10) (1 / 100000))

/-- `data["Modified Julian day no."].duplicated().any()`. -/
def hasDuplicateJulian (data : List Record) : Bool :=
  decide (¬ (data.map Record.julian).Nodup)

/-- `data_integrity_check(data)`: asserts (in source order) that each
column of `sorted_checks` is monotonic non-decreasing, that each channel's
incremental column cumsums to its cumulative column within `isclose`
tolerance, and that the julian-day column has no duplicates.  The first
failing assert raises; success returns `()` (Python `None`). -/
def data_integrity_check (data : List Record) : Except IntegrityError Unit :=
  match sorted_checks.find? (fun column => ! nondecreasing (getColumn data column)) with
  | some column => .error (.notMonotonic column)
  | none =>
    match cumulativeTargets.find? (fun t => ! cumulativeOk data t) with
    | some t => .error (.cumulativeMismatch t)
    | none =>
      if hasDuplicateJulian data then .error .duplicateKey else .ok ()

/-- `data.index[data["Date"] == d].values[0]` guarded by
`d in data["Date"].values`: the first row position whose date is `d`. -/
def dateIndex (data : List Record) (d : ℤ) : Option ℕ :=
  match data with
  | [] => none
  | r :: rs => if r.date = d then some 0 else (dateIndex rs d).map (· + 1)

/-- One row of a `resample(...).sum()/.mean()` result: the resampling key
(the window's right boundary date, pandas' bucket label) plus the
aggregated numeric columns (`numeric_only=True` drops the Date column but
keeps the julian-day column, which is averaged/summed like the rest). -/
structure Bucket where
  key : ℤ
  julian : ℚ
  mah_sync : ℚ
  mah_ts1 : ℚ
  mah_ts2 : ℚ
  cum_sync : ℚ
  cum_ts1 : ℚ
  cum_ts2 : ℚ
deriving DecidableEq, Repr

/-- Column `Milliamp-hours (target)` of a resampled row. -/
def bucketMah (target : String) (b : Bucket) : ℚ :=
  match target with
  | "Sync" => b.mah_sync
  | "TS-1" => b.mah_ts1
  | "TS-2" => b.mah_ts2
  | _ => 0

/-- The value returned by `get_sliced_data`: either the daily pass-through
slice of original rows, or a weekly/monthly resampled frame. -/
inductive Sliced where
  | daily (records : List Record)
  | resampled (buckets : List Bucket)
deriving DecidableEq, Repr

/-- `used_data[f"Milliamp-hours ({target})"].values` on either shape of
`get_sliced_data` output. -/
def slicedMah (target : String) : Sliced → List ℚ
  | .daily rs => rs.map (mahCol target)
  | .resampled bs => bs.map (bucketMah target)

/-- pandas weekly resampling key `"W"` (= `"W-SUN"`): the next day `≥ d`
that is a Sunday.  Day 0 = 1970-01-01 is a Thursday, so Sundays are the
days congruent to 3 modulo 7. -/
def weekEnd (d : ℤ) : ℤ := d + (3 - d) % 7

/-- Civil-calendar conversion (proleptic Gregorian): day ordinal to
(year, month, day), with day 0 = 1970-01-01. -/
def civilFromDays (z : ℤ) : ℤ × ℤ × ℤ :=
  let z' := z + 719468
  let era := Int.fdiv z' 146097
  let doe := z' - era * 146097
  let yoe := Int.fdiv (doe - Int.fdiv doe 1460 + Int.fdiv doe 36524 - Int.fdiv doe 146096) 365
  let doy := doe - (365 * yoe + Int.fdiv yoe 4 - Int.fdiv yoe 100)
  let mp := Int.fdiv (5 * doy + 2) 153
  let d := doy - Int.fdiv (153 * mp + 2) 5 + 1
  let m := mp + (if mp < 10 then 3 else -9)
  (yoe + era * 400 + (if m ≤ 2 then 1 else 0), m, d)

/-- Civil-calendar conversion: (year, month, day) to day ordinal. -/
def daysFromCivil (y m d : ℤ) : ℤ :=
  let y' := y - (if m ≤ 2 then 1 else 0)
  let era := Int.fdiv y' 400
  let yoe := y' - era * 400
  let doy := Int.fdiv (153 * (m + (if m > 2 then -3 else 9)) + 2) 5 + d - 1
  let doe := yoe * 365 + Int.fdiv yoe 4 - Int.fdiv yoe 100 + doy
  era * 146097 + doe - 719468

/-- pandas monthly resampling key `"M"`: the last day of the calendar
month containing `z` (pandas labels month buckets by month end). -/
def monthEnd (z : ℤ) : ℤ :=
  let c := civilFromDays z
  if c.2.1 = 12 then daysFromCivil (c.1 + 1) 1 1 - 1
  else daysFromCivil c.1 (c.2.1 + 1) 1 - 1

/-- All day ordinals from `lo` to `hi` inclusive. -/
def dayRange (lo hi : ℤ) : List ℤ :=
  (List.range (hi + 1 - lo).toNat).map (fun (i : ℕ) => lo + (i : ℤ))

/-- Earliest date among `r :: rs`. -/
def minDateOf (r : Record) (rs : List Record) : ℤ :=
  rs.foldl (fun a x => min a x.date) r.date

/-- Latest date among `r :: rs`. -/
def maxDateOf (r : Record) (rs : List Record) : ℤ :=
  rs.foldl (fun a x => max a x.date) r.date

/-- One output row of `resample(keyFn).sum()/.mean()`: aggregates every
record whose window key is `k`.  pandas' mean of an empty window is `NaN`;
in this rational model the division `0 / 0` collapses to `0` instead
(empty windows only arise zero-filled in the claims below, all of which
use the summed form on empty windows). -/
def bucketOf (keyFn : ℤ → ℤ) (is_averaged : Bool) (rs : List Record) (k : ℤ) : Bucket :=
  let members := rs.filter (fun r => decide (keyFn r.date = k))
  let agg : (Record → ℚ) → ℚ := fun f =>
    let s := (members.map f).sum
    if is_averaged then s / (members.length : ℚ) else s
  { key := k, julian := agg (fun r => (r.julian : ℚ)),
    mah_sync := agg Record.mah_sync, mah_ts1 := agg Record.mah_ts1,
    mah_ts2 := agg Record.mah_ts2, cum_sync := agg Record.cum_sync,
    cum_ts1 := agg Record.cum_ts1, cum_ts2 := agg Record.cum_ts2 }

/-- `df.resample(freq, on="Date").sum()/.mean()`: pandas emits one bucket
for every calendar window from the window of the earliest record to the
window of the latest record, empty windows included; the bucket labels are
the windows' right boundaries, in ascending order.  Equivalently, the
bucket labels are the distinct values of the window-key function over all
days spanned by the input. -/
def resampleBy (keyFn : ℤ → ℤ) (is_averaged : Bool) : List Record → List Bucket
  | [] => []
  | r :: rs =>
    (((dayRange (minDateOf r rs) (maxDateOf r rs)).map keyFn).dedup).map
      (bucketOf keyFn is_averaged (r :: rs))

/-- `get_sliced_data(data, start_date, end_date, frequency, is_averaged)`:
validates the two dates against the Date column, rejects inverted ranges,
takes the inclusive positional slice `iloc[start_index:end_index+1]`, and
dispatches on the frequency string; `None` results model the printed
"Invalid ..." diagnostics. -/
def get_sliced_data (data : List Record) (start_date end_date : ℤ)
    (frequency : String) (is_averaged : Bool) : Option Sliced :=
  match dateIndex data start_date with
  | none => none
  | some start_index =>
    match dateIndex data end_date with
    | none => none
    | some end_index =>
      if end_index < start_index then none
      else
        let sliceRecs := (data.drop start_index).take (end_index + 1 - start_index)
        match frequency with
        | "Daily" => some (.daily sliceRecs)
        | "Weekly" => some (.resampled (resampleBy weekEnd is_averaged sliceRecs))
        | "Monthly" => some (.resampled (resampleBy monthEnd is_averaged sliceRecs))
        | _ => none

/-- The `valid_targets` default argument. -/
def valid_targets : List String := ["Sync", "TS-1", "TS-2"]

/-- A value of numpy/pandas type returned by the query surface: either a
scalar float or a float array. -/
inductive QVal where
  | scalar (q : ℚ)
  | vector (l : List ℚ)
deriving DecidableEq, Repr

/-- Elementwise application, as numpy broadcasting over scalars/arrays. -/
def qvalMap (f : ℚ → ℚ) : QVal → QVal
  | .scalar q => .scalar (f q)
  | .vector l => .vector (l.map f)

/-- `get_integrated_current(data, start_date, end_date, target, ...)`:
with no `end_date` it returns the first matching row's incremental-charge
scalar; with an `end_date` it slices (and possibly resamples), then
returns the `Milliamp-hours (target)` values, summed to a scalar when
`is_summed`.  `None` models every printed-diagnostic early return,
including the fall-through when `get_sliced_data` returned `None`. -/
def get_integrated_current (data : List Record) (start_date : ℤ) (end_date : Option ℤ)
    (target : String) (frequency : String) (is_averaged is_summed : Bool) : Option QVal :=
  if target ∈ valid_targets then
    match end_date with
    | none =>
      match data.find? (fun r => decide (r.date = start_date)) with
      | none => none
      | some r => some (.scalar (mahCol target r))
    | some ed =>
      match get_sliced_data data start_date ed frequency is_averaged with
      | none => none
      | some s =>
        let integrated_currents := slicedMah target s
        if is_summed then some (.scalar integrated_currents.sum)
        else some (.vector integrated_currents)
  else none

/-- Spec-side predicate: the column has two adjacent entries that
decrease, i.e. it is not monotonic non-decreasing. -/
def decreasesSomewhere (l : List ℚ) : Prop :=
  ∃ i a b, l[i]? = some a ∧ l[i + 1]? = some b ∧ b < a

/-- Earliest date of a slice (`0` on the empty slice, which never reaches
the resampler below). -/
def sliceLo : List Record → ℤ
  | [] => 0
  | r :: rs => minDateOf r rs

/-- Latest date of a slice. -/
def sliceHi : List Record → ℤ
  | [] => 0
  | r :: rs => maxDateOf r rs

/-- The query-time Python exceptions of the derived-quantity functions:
applying `>` or `*` to the `None` sentinel raises `TypeError`. -/
inductive PyError where
  | typeError
deriving DecidableEq, Repr

/-- `is_beam_on(data, date, target)`: evaluates
`get_integrated_current(data, date, target=target, is_summed=True) > 0`.
When the inner call returns `None` (absent date or invalid target) the
comparison `None > 0` raises `TypeError`.  A vector result cannot occur:
a query without `end_date` only ever produces a scalar or `None`. -/
def is_beam_on (data : List Record) (date : ℤ) (target : String) : Except PyError Bool :=
  match get_integrated_current data date none target "Daily" false true with
  | some (.scalar q) => .ok (decide (0 < q))
  | some (.vector _) => .error .typeError
  | none => .error .typeError

/-- The constant `proton_charge = 1.6e-19` of `get_num_protons`. -/
def proton_charge : ℚ := 16 / 10 ^ 20

/-- `get_num_protons(...)`: `(integrated_current * 1e-3) / proton_charge`,
further divided by `86400` when `per_second`.  When
`get_integrated_current` returns `None`, the multiplication `None * 1e-3`
raises `TypeError`. -/
def get_num_protons (data : List Record) (start_date : ℤ) (end_date : Option ℤ)
    (target : String) (frequency : String) (is_averaged is_summed per_second : Bool) :
    Except PyError QVal :=
  match get_integrated_current data start_date end_date target frequency is_averaged is_summed with
  | none => .error .typeError
  | some ic =>
    let num_protons := qvalMap (fun q => q * (1 / 1000) / proton_charge) ic
    if per_second then .ok (qvalMap (fun q => q / 86400) num_protons)
    else .ok num_protons

/-- `get_average_power(...)`: scales the queried charge by
`voltage * voltage_unit_factor` and `current_unit_factor`.  When
`get_integrated_current` returns `None`, the multiplication
`current_unit_factor * None` raises `TypeError`. -/
def get_average_power (data : List Record) (start_date : ℤ) (end_date : Option ℤ)
    (target : String) (frequency : String) (is_averaged is_summed : Bool)
    (voltage voltage_unit_factor current_unit_factor : ℚ) : Except PyError QVal :=
  match get_integrated_current data start_date end_date target frequency is_averaged is_summed with
  | none => .error .typeError
  | some ic =>
    .ok (qvalMap (fun q => (voltage * voltage_unit_factor) * (current_unit_factor * q)) ic)

/-- A small conforming table: two records on 1970-01-05 (day 4) and
1970-01-19 (day 18), passing `data_integrity_check`. -/
def exTable : List Record :=
  [⟨1, 4, 1, 1, 1, 1, 1, 1⟩, ⟨2, 18, 2, 2, 2, 3, 3, 3⟩]

/-- A table whose Sync running sum differs from the Sync cumulative column
by a full 1 mAh, yet passes the integrity check because `numpy.isclose`
also grants `rtol * |b|` of slack. -/
def exTableTol : List Record :=
  [⟨1, 0, 100000, 0, 0, 100001, 0, 0⟩]

/-- A table with two records sharing one calendar date but with distinct
julian-day values; it passes the integrity check. -/
def exTableDupDate : List Record :=
  [⟨1, 5, 0, 0, 0, 0, 0, 0⟩, ⟨2, 5, 0, 0, 0, 0, 0, 0⟩]

/-- The weekly resampling of `exTable` over its full range: the bucket
labelled by Sunday day 17 has no contributing records and is zero-filled. -/
def exWeeklyBuckets : List Bucket :=
  [⟨10, 1, 1, 1, 1, 1, 1, 1⟩, ⟨17, 0, 0, 0, 0, 0, 0, 0⟩, ⟨24, 2, 2, 2, 2, 3, 3, 3⟩]

/-! ### Helper lemmas -/

/-- Indexing into a dropped list shifts the index. -/
theorem getElem?_drop_add {α : Type*} (l : List α) (n i : ℕ) : (l.drop n)[i]? = l[n + i]? := by
  induction n generalizing l with
  | zero => simp
  | succ n ih =>
    cases l with
    | nil => simp
    | cons a t =>
      have harith : n + 1 + i = (n + i) + 1 := by omega
      rw [List.drop_succ_cons, ih, harith, List.getElem?_cons_succ]

/-- Elements at a common index of two lists form an element of their zip. -/
theorem mem_zip_of_getElem? {α β : Type*} {l₁ : List α} {l₂ : List β} {i : ℕ} {a : α} {b : β}
    (h₁ : l₁[i]? = some a) (h₂ : l₂[i]? = some b) : (a, b) ∈ l₁.zip l₂ :=
  List.getElem?_mem (List.getElem?_zip_eq_some.mpr ⟨h₁, h₂⟩)

/-- Soundness of `dateIndex`: a found index carries a row with the looked-up
date, and `find?` on the date predicate returns that same (first) row. -/
theorem dateIndex_find? {data : List Record} {d : ℤ} {i : ℕ}
    (h : dateIndex data d = some i) :
    ∃ r, data[i]? = some r ∧ r.date = d ∧
      data.find? (fun r => decide (r.date = d)) = some r := by
  induction data generalizing i with
  | nil => simp [dateIndex] at h
  | cons r rs ih =>
    rw [dateIndex] at h
    by_cases hr : r.date = d
    · rw [if_pos hr] at h
      obtain rfl : (0 : ℕ) = i := Option.some.inj h
      exact ⟨r, by simp, hr, by simp [hr]⟩
    · rw [if_neg hr] at h
      obtain ⟨j, hj, rfl⟩ := Option.map_eq_some'.mp h
      obtain ⟨r', hr', hd', hf'⟩ := ih hj
      exact ⟨r', by simpa using hr', hd', by simp [hr, hf']⟩

/-- `dateIndex` misses exactly when `find?` on the date predicate misses. -/
theorem dateIndex_none_iff {data : List Record} {d : ℤ} :
    dateIndex data d = none ↔ data.find? (fun r => decide (r.date = d)) = none := by
  induction data with
  | nil => simp [dateIndex]
  | cons r rs ih =>
    rw [dateIndex]
    by_cases hr : r.date = d
    · simp [hr]
    · simp [hr, ih]

/-- A found date index is inside the table. -/
theorem dateIndex_lt_length {data : List Record} {d : ℤ} {i : ℕ}
    (h : dateIndex data d = some i) : i < data.length := by
  obtain ⟨r, hr, -, -⟩ := dateIndex_find? h
  exact (List.getElem?_eq_some_iff.mp hr).1

/-- `nondecreasing` means every adjacent pair is ordered. -/
theorem nondecreasing_iff {l : List ℚ} :
    nondecreasing l = true ↔ ∀ i a b, l[i]? = some a → l[i + 1]? = some b → a ≤ b := by
  induction l with
  | nil =>
    simp only [nondecreasing, true_iff]
    intro i a b ha
    simp at ha
  | cons a t ih =>
    cases t with
    | nil =>
      simp only [nondecreasing, true_iff]
      intro i x y hx hy
      rw [List.getElem?_cons_succ] at hy
      simp at hy
    | cons b t' =>
      rw [nondecreasing, Bool.and_eq_true, decide_eq_true_eq, ih]
      constructor
      · rintro ⟨hab, hrest⟩ i x y hx hy
        cases i with
        | zero =>
          rw [List.getElem?_cons_zero] at hx
          rw [List.getElem?_cons_succ, List.getElem?_cons_zero] at hy
          obtain rfl := Option.some.inj hx
          obtain rfl := Option.some.inj hy
          exact hab
        | succ j =>
          rw [List.getElem?_cons_succ] at hx hy
          exact hrest j x y hx hy
      · intro h
        refine ⟨h 0 a b (by simp) (by simp), fun j x y hx hy => ?_⟩
        exact h (j + 1) x y (by simpa using hx) (by simpa using hy)

/-- A column fails `nondecreasing` exactly when it decreases somewhere. -/
theorem nondecreasing_eq_false_iff {l : List ℚ} :
    nondecreasing l = false ↔ decreasesSomewhere l := by
  rw [← Bool.not_eq_true, nondecreasing_iff]
  unfold decreasesSomewhere
  push_neg
  rfl

/-- Full characterisation of a passing integrity check. -/
theorem check_ok_iff {data : List Record} :
    data_integrity_check data = .ok () ↔
      nondecreasing (getColumn data "Modified Julian day no.") = true ∧
      nondecreasing (getColumn data "Cumulative milliamp-hours (TS-2)") = true ∧
      cumulativeOk data "Sync" = true ∧
      cumulativeOk data "TS-1" = true ∧
      cumulativeOk data "TS-2" = true ∧
      (data.map Record.julian).Nodup := by
  unfold data_integrity_check sorted_checks cumulativeTargets hasDuplicateJulian
  cases hj : nondecreasing (getColumn data "Modified Julian day no.") <;>
    cases ht : nondecreasing (getColumn data "Cumulative milliamp-hours (TS-2)") <;>
      cases hs : cumulativeOk data "Sync" <;>
        cases h1 : cumulativeOk data "TS-1" <;>
          cases h2 : cumulativeOk data "TS-2" <;>
            by_cases hd : (data.map Record.julian).Nodup <;>
              simp [List.find?, hj, ht, hs, h1, h2, hd]

/-- Unfolding of `get_integrated_current` on a range query (definitional). -/
theorem gic_some_end (data : List Record) (s e : ℤ) (t f : String) (avg sm : Bool) :
    get_integrated_current data s (some e) t f avg sm =
      if t ∈ valid_targets then
        match get_sliced_data data s e f avg with
        | none => none
        | some sl =>
          if sm then some (.scalar (slicedMah t sl).sum)
          else some (.vector (slicedMah t sl))
      else none := rfl

/-- Unfolding of `get_integrated_current` on a single-date query
(definitional). -/
theorem gic_none_end (data : List Record) (s : ℤ) (t f : String) (avg sm : Bool) :
    get_integrated_current data s none t f avg sm =
      if t ∈ valid_targets then
        match data.find? (fun r => decide (r.date = s)) with
        | none => none
        | some r => some (.scalar (mahCol t r))
      else none := rfl

/-! ### Claim theorems -/

/-- C10: when the frequency is "Daily", neither `get_sliced_data` nor
`get_integrated_current` depends on the `is_averaged` parameter: the runs
with `is_averaged = true` and `is_averaged = false` return equal results
for every table, date range, target and `is_summed` setting. -/
theorem c10_daily_ignores_averaging (data : List Record) (s e : ℤ) (t : String) (sm : Bool) :
    get_sliced_data data s e "Daily" true = get_sliced_data data s e "Daily" false ∧
    get_integrated_current data s (some e) t "Daily" true sm =
      get_integrated_current data s (some e) t "Daily" false sm := by
  have hs : get_sliced_data data s e "Daily" true = get_sliced_data data s e "Daily" false := by
    unfold get_sliced_data
    cases dateIndex data s <;> cases dateIndex data e <;> rfl
  refine ⟨hs, ?_⟩
  rw [gic_some_end, gic_some_end, hs]

/-- C7: for every date range, target and frequency on which the
element-wise query succeeds, `get_integrated_current` with
`is_summed = true` returns exactly the arithmetic sum of the sequence
returned with `is_summed = false` on the same arguments. -/
theorem c7_summed_eq_sum (data : List Record) (s e : ℤ) (t f : String) (avg : Bool)
    (l : List ℚ)
    (h : get_integrated_current data s (some e) t f avg false = some (.vector l)) :
    get_integrated_current data s (some e) t f avg true = some (.scalar l.sum) := by
  rw [gic_some_end] at h ⊢
  by_cases ht : t ∈ valid_targets
  · rw [if_pos ht] at h ⊢
    cases hsl : get_sliced_data data s e f avg with
    | none =>
      rw [hsl] at h
      simp at h
    | some sl =>
      rw [hsl] at h
      simp at h
      simp [h]
  · rw [if_neg ht] at h
    exact absurd h (by simp)

/-- C7 witness: on the concrete table `exTable` over its full range, the
element-wise Daily query returns `[1, 2]` and the summed query returns the
scalar sum of that sequence. -/
theorem c7_summed_eq_sum_witness :
    get_integrated_current exTable 4 (some 18) "TS-1" "Daily" false false =
      some (.vector [1, 2]) ∧
    get_integrated_current exTable 4 (some 18) "TS-1" "Daily" false true =
      some (.scalar ([(1 : ℚ), 2]).sum) :=
  ⟨by rfl, c7_summed_eq_sum exTable 4 18 "TS-1" "Daily" false [1, 2] (by rfl)⟩

/-- C9: whenever `get_integrated_current` returns a charge value (scalar
or element-wise vector), `get_num_protons` on the same arguments returns
that value scaled by `1e-3 / 1.6e-19`, and additionally divided by 86400
when `per_second` is set. -/
theorem c9_proton_conversion (data : List Record) (s : ℤ) (eo : Option ℤ) (t f : String)
    (avg sm : Bool) (v : QVal)
    (h : get_integrated_current data s eo t f avg sm = some v) :
    get_num_protons data s eo t f avg sm false =
      .ok (qvalMap (fun c => c * (1 / 1000) / proton_charge) v) ∧
    get_num_protons data s eo t f avg sm true =
      .ok (qvalMap (fun c => c * (1 / 1000) / proton_charge / 86400) v) := by
  unfold get_num_protons
  rw [h]
  refine ⟨rfl, ?_⟩
  cases v <;> simp [qvalMap]

/-- C9 witness: on `exTable` the single-date query at day 4 yields the
scalar 1, and `get_num_protons` returns it scaled by `1e-3 / 1.6e-19`,
additionally divided by 86400 in the per-second variant. -/
theorem c9_proton_conversion_witness :
    get_num_protons exTable 4 none "TS-1" "Daily" false false false =
      .ok (qvalMap (fun c => c * (1 / 1000) / proton_charge) (.scalar 1)) ∧
    get_num_protons exTable 4 none "TS-1" "Daily" false false true =
      .ok (qvalMap (fun c => c * (1 / 1000) / proton_charge / 86400) (.scalar 1)) :=
  c9_proton_conversion exTable 4 none "TS-1" "Daily" false false (.scalar 1) (by rfl)

/-- C2 counterexample: `is_beam_on` queried at a date absent from the
table does not return a sentinel no-result — the comparison `None > 0`
raises a `TypeError`, so the claim that no query-surface function ever
raises on query-time invalid input is false. -/
theorem c2_query_surface_raises_cx :
    is_beam_on exTable 999 "TS-1" = .error .typeError := by rfl

/-- `get_sliced_data` evaluated once both date lookups have succeeded
(definitional unfolding). -/
theorem gsd_eval (data : List Record) (s e : ℤ) (f : String) (avg : Bool) (si ei : ℕ)
    (hs : dateIndex data s = some si) (he : dateIndex data e = some ei) :
    get_sliced_data data s e f avg =
      if ei < si then none
      else
        match f with
        | "Daily" => some (.daily ((data.drop si).take (ei + 1 - si)))
        | "Weekly" =>
          some (.resampled (resampleBy weekEnd avg ((data.drop si).take (ei + 1 - si))))
        | "Monthly" =>
          some (.resampled (resampleBy monthEnd avg ((data.drop si).take (ei + 1 - si))))
        | _ => none := by
  unfold get_sliced_data
  simp only [hs, he]

/-- C2 amended: on every query-time invalid input — start date not in the
table, end date not in the table, end position before start position,
unknown frequency, unknown target — `get_sliced_data` and
`get_integrated_current` return the `None` sentinel and never raise, but
`is_beam_on`, `get_num_protons` and `get_average_power` propagate the
sentinel into `>` and `*` and raise `TypeError`. -/
theorem c2_fail_soft_split (data : List Record) (s e : ℤ) (t f : String)
    (avg sm ps : Bool) (volt vuf cuf : ℚ) :
    (dateIndex data s = none ∨ dateIndex data e = none ∨
        (∃ si ei, dateIndex data s = some si ∧ dateIndex data e = some ei ∧ ei < si) ∨
        f ∉ (["Daily", "Weekly", "Monthly"] : List String) →
      get_sliced_data data s e f avg = none) ∧
    (dateIndex data s = none ∨ dateIndex data e = none ∨
        (∃ si ei, dateIndex data s = some si ∧ dateIndex data e = some ei ∧ ei < si) ∨
        f ∉ (["Daily", "Weekly", "Monthly"] : List String) ∨ t ∉ valid_targets →
      get_integrated_current data s (some e) t f avg sm = none ∧
      get_num_protons data s (some e) t f avg sm ps = .error .typeError ∧
      get_average_power data s (some e) t f avg sm volt vuf cuf = .error .typeError) ∧
    (dateIndex data s = none ∨ t ∉ valid_targets →
      get_integrated_current data s none t f avg sm = none ∧
      get_num_protons data s none t f avg sm ps = .error .typeError ∧
      is_beam_on data s t = .error .typeError) := by
  have hgs : dateIndex data s = none ∨ dateIndex data e = none ∨
      (∃ si ei, dateIndex data s = some si ∧ dateIndex data e = some ei ∧ ei < si) ∨
      f ∉ (["Daily", "Weekly", "Monthly"] : List String) →
      get_sliced_data data s e f avg = none := by
    intro h
    rcases h with h | h | ⟨si, ei, hsi, hei, hlt⟩ | hf
    · unfold get_sliced_data
      rw [h]
    · cases hs' : dateIndex data s with
      | none =>
        unfold get_sliced_data
        rw [hs']
      | some si =>
        unfold get_sliced_data
        simp only [hs', h]
    · rw [gsd_eval data s e f avg si ei hsi hei, if_pos hlt]
    · cases hs' : dateIndex data s with
      | none =>
        unfold get_sliced_data
        rw [hs']
      | some si =>
        cases he' : dateIndex data e with
        | none =>
          unfold get_sliced_data
          simp only [hs', he']
        | some ei =>
          rw [gsd_eval data s e f avg si ei hs' he']
          by_cases hcc : ei < si
          · rw [if_pos hcc]
          · rw [if_neg hcc]
            split
            · exact absurd (by decide) hf
            · exact absurd (by decide) hf
            · exact absurd (by decide) hf
            · rfl
  have hgic : dateIndex data s = none ∨ dateIndex data e = none ∨
      (∃ si ei, dateIndex data s = some si ∧ dateIndex data e = some ei ∧ ei < si) ∨
      f ∉ (["Daily", "Weekly", "Monthly"] : List String) ∨ t ∉ valid_targets →
      get_integrated_current data s (some e) t f avg sm = none := by
    intro h
    by_cases ht : t ∈ valid_targets
    · have h4 : dateIndex data s = none ∨ dateIndex data e = none ∨
          (∃ si ei, dateIndex data s = some si ∧ dateIndex data e = some ei ∧ ei < si) ∨
          f ∉ (["Daily", "Weekly", "Monthly"] : List String) := by
        rcases h with h | h | h | h | h
        · exact Or.inl h
        · exact Or.inr (Or.inl h)
        · exact Or.inr (Or.inr (Or.inl h))
        · exact Or.inr (Or.inr (Or.inr h))
        · exact absurd ht h
      rw [gic_some_end, if_pos ht, hgs h4]
    · rw [gic_some_end, if_neg ht]
  refine ⟨hgs, fun h => ?_, fun h => ?_⟩
  · have hg := hgic h
    refine ⟨hg, ?_, ?_⟩
    · unfold get_num_protons
      rw [hg]
    · unfold get_average_power
      rw [hg]
  · have hg1 : ∀ (f' : String) (avg' sm' : Bool),
        get_integrated_current data s none t f' avg' sm' = none := by
      intro f' avg' sm'
      by_cases ht : t ∈ valid_targets
      · rcases h with hd | hni
        · rw [gic_none_end, if_pos ht, dateIndex_none_iff.mp hd]
        · exact absurd ht hni
      · rw [gic_none_end, if_neg ht]
    refine ⟨hg1 f avg sm, ?_, ?_⟩
    · unfold get_num_protons
      rw [hg1 f avg sm]
    · unfold is_beam_on
      rw [hg1 "Daily" false true]

/-- C2 witness: the amended behaviour at the concrete absent date 999 on
`exTable`: both slicing functions return the sentinel, the three derived
functions raise `TypeError`. -/
theorem c2_fail_soft_split_witness :
    get_sliced_data exTable 999 18 "Daily" false = none ∧
    (get_integrated_current exTable 999 (some 18) "TS-1" "Daily" false false = none ∧
     get_num_protons exTable 999 (some 18) "TS-1" "Daily" false false false = .error .typeError ∧
     get_average_power exTable 999 (some 18) "TS-1" "Daily" false false 800 1 1 = .error .typeError) ∧
    (get_integrated_current exTable 999 none "TS-1" "Daily" false false = none ∧
     get_num_protons exTable 999 none "TS-1" "Daily" false false false = .error .typeError ∧
     is_beam_on exTable 999 "TS-1" = .error .typeError) := by
  have h := c2_fail_soft_split exTable 999 18 "TS-1" "Daily" false false false 800 1 1
  exact ⟨h.1 (Or.inl rfl), h.2.1 (Or.inl rfl), h.2.2 (Or.inl rfl)⟩

/-- C3: on a valid Daily range query, `get_sliced_data` returns exactly
the contiguous inclusive sub-sequence of records from the start position
through the end position, in table order, with every record unchanged. -/
theorem c3_daily_slice_identity (data : List Record) (s e : ℤ) (avg : Bool) (si ei : ℕ)
    (h1 : dateIndex data s = some si) (h2 : dateIndex data e = some ei) (h3 : si ≤ ei) :
    ∃ l, get_sliced_data data s e "Daily" avg = some (.daily l) ∧
      l.length = ei + 1 - si ∧
      ∀ k, k < ei + 1 - si → l[k]? = data[si + k]? := by
  have hei : ei < data.length := dateIndex_lt_length h2
  refine ⟨(data.drop si).take (ei + 1 - si), ?_, ?_, ?_⟩
  · unfold get_sliced_data
    simp only [h1, h2]
    rw [if_neg (show ¬ ei < si by omega)]
  · rw [List.length_take, List.length_drop]
    omega
  · intro k hk
    rw [List.getElem?_take_of_lt hk, getElem?_drop_add]

/-- C3 witness: the Daily slice of `exTable` from day 4 to day 18 is the
whole two-record table, position by position. -/
theorem c3_daily_slice_identity_witness :
    dateIndex exTable 4 = some 0 ∧ dateIndex exTable 18 = some 1 ∧
    (∃ l, get_sliced_data exTable 4 18 "Daily" false = some (.daily l) ∧
      l.length = 1 + 1 - 0 ∧
      ∀ k, k < 1 + 1 - 0 → l[k]? = exTable[0 + k]?) :=
  ⟨rfl, rfl, c3_daily_slice_identity exTable 4 18 false 0 1 rfl rfl (by omega)⟩

/-- C8: for a date present in the table and a valid target, the
single-date query returns that record's incremental-charge value directly
as an unwrapped scalar, equal to the single element of the length-1 Daily
range query over the same date; for an absent date both forms return the
same `None` sentinel. -/
theorem c8_single_date_consistency (data : List Record) (d : ℤ) (t : String)
    (avg sm : Bool) (ht : t ∈ valid_targets) :
    (∀ si, dateIndex data d = some si →
      ∃ r, data[si]? = some r ∧
        get_integrated_current data d none t "Daily" avg sm =
          some (.scalar (mahCol t r)) ∧
        get_integrated_current data d (some d) t "Daily" avg false =
          some (.vector [mahCol t r])) ∧
    (dateIndex data d = none →
      get_integrated_current data d none t "Daily" avg sm = none ∧
      get_integrated_current data d (some d) t "Daily" avg false = none) := by
  constructor
  · intro si hsi
    obtain ⟨r, hr, hrd, hfind⟩ := dateIndex_find? hsi
    refine ⟨r, hr, ?_, ?_⟩
    · rw [gic_none_end, if_pos ht, hfind]
    · rw [gic_some_end, if_pos ht]
      have hlt : si < data.length := (List.getElem?_eq_some_iff.mp hr).1
      have hslice : get_sliced_data data d d "Daily" avg = some (.daily [r]) := by
        unfold get_sliced_data
        simp only [hsi]
        rw [if_neg (lt_irrefl si)]
        have hdrop : data.drop si = r :: data.drop (si + 1) := by
          rw [List.drop_eq_getElem_cons hlt]
          congr 1
          exact (List.getElem?_eq_some_iff.mp hr).2
        rw [show si + 1 - si = 1 by omega, hdrop]
        rfl
      rw [hslice]
      rfl
  · intro hnone
    have hfind := dateIndex_none_iff.mp hnone
    constructor
    · rw [gic_none_end, if_pos ht, hfind]
    · rw [gic_some_end, if_pos ht]
      have hgs : get_sliced_data data d d "Daily" avg = none := by
        unfold get_sliced_data
        rw [hnone]
      rw [hgs]

/-- C8 witness: at day 4 of `exTable` the single-date query yields the
scalar `mahCol "TS-1" r` of the first record, and the length-1 Daily range
query yields the one-element vector of the same value. -/
theorem c8_single_date_consistency_witness :
    ∃ r, exTable[0]? = some r ∧
      get_integrated_current exTable 4 none "TS-1" "Daily" false false =
        some (.scalar (mahCol "TS-1" r)) ∧
      get_integrated_current exTable 4 (some 4) "TS-1" "Daily" false false =
        some (.vector [mahCol "TS-1" r]) :=
  (c8_single_date_consistency exTable 4 "TS-1" false false (by decide)).1 0 rfl

/-- C6 counterexample: `exTableDupDate` passes the integrity check yet its
date column contains a duplicate (the check only inspects the julian-day
column), so the claim that passing tables have strictly increasing,
duplicate-free dates is false. -/
theorem c6_duplicate_date_cx :
    data_integrity_check exTableDupDate = .ok () ∧
    ¬ (exTableDupDate.map Record.date).Nodup :=
  ⟨by with_unfolding_all rfl, by decide⟩

/-- C6 amended: for every table passing `data_integrity_check`, the
julian-day column is strictly increasing with no duplicates; the date
column is not validated by the check. -/
theorem c6_julian_strict_increase (data : List Record)
    (h : data_integrity_check data = .ok ()) :
    (data.map Record.julian).Nodup ∧
    ∀ i a b, (data.map Record.julian)[i]? = some a →
      (data.map Record.julian)[i + 1]? = some b → a < b := by
  obtain ⟨hj, -, -, -, -, hdup⟩ := check_ok_iff.mp h
  refine ⟨hdup, fun i a b ha hb => ?_⟩
  have hcast : ∀ (j : ℕ) (x : ℤ), (data.map Record.julian)[j]? = some x →
      (getColumn data "Modified Julian day no.")[j]? = some ((x : ℚ)) := by
    intro j x hx
    show (data.map (fun r => ((r.julian : ℚ))))[j]? = some ((x : ℚ))
    rw [List.getElem?_map] at hx ⊢
    obtain ⟨r, hr, hrx⟩ := Option.map_eq_some'.mp hx
    rw [hr]
    simp [hrx]
  have hle : (a : ℚ) ≤ (b : ℚ) :=
    nondecreasing_iff.mp hj i (a : ℚ) (b : ℚ) (hcast i a ha) (hcast (i + 1) b hb)
  have hab : a ≤ b := by exact_mod_cast hle
  have hne : a ≠ b := by
    intro hEq
    subst hEq
    have hlen : i + 1 < (data.map Record.julian).length :=
      (List.getElem?_eq_some_iff.mp hb).1
    exact absurd (ha.trans hb.symm)
      (List.nodup_iff_getElem?_ne_getElem?.mp hdup i (i + 1) (by omega) hlen)
  exact lt_of_le_of_ne hab hne

/-- C6 witness: on the passing table `exTable` the julian column `[1, 2]`
is duplicate-free and strictly increasing at the one adjacent position. -/
theorem c6_julian_strict_increase_witness :
    (exTable.map Record.julian).Nodup ∧
    ∀ i a b, (exTable.map Record.julian)[i]? = some a →
      (exTable.map Record.julian)[i + 1]? = some b → a < b :=
  c6_julian_strict_increase exTable (by with_unfolding_all rfl)

/-- C1 counterexample: `exTableTol` passes the integrity check while its
Sync running sum differs from the Sync cumulative column by 1 mAh at
position 0, far outside the claimed absolute tolerance of 0.1 — because
`numpy.isclose` also grants relative slack `1e-5 * |b|`. -/
theorem c1_cumulative_within_atol_cx :
    data_integrity_check exTableTol = .ok () ∧
    (cumsum (exTableTol.map (mahCol "Sync")))[0]? = some 100000 ∧
    (exTableTol.map (cumCol "Sync"))[0]? = some 100001 ∧
    ¬ (|(100000 : ℚ) - 100001| ≤ 1 / 10) := by
  refine ⟨by with_unfolding_all rfl, by with_unfolding_all rfl, rfl, by norm_num⟩

/-- C1 amended: for every table passing the integrity check, every
channel's running incremental sum matches the cumulative column at every
position within the `numpy.isclose` tolerance actually used by the code,
`0.1 + 1e-5 * |cumulative|`. -/
theorem c1_cumulative_isclose_tolerance (data : List Record) (t : String)
    (ht : t ∈ cumulativeTargets)
    (h : data_integrity_check data = .ok ()) (i : ℕ) (a b : ℚ)
    (ha : (cumsum (data.map (mahCol t)))[i]? = some a)
    (hb : (data.map (cumCol t))[i]? = some b) :
    |a - b| ≤ 1 / 10 + (1 / 100000) * |b| := by
  obtain ⟨-, -, hS, h1, h2, -⟩ := check_ok_iff.mp h
  have hok : cumulativeOk data t = true := by
    have hcases : t = "Sync" ∨ t = "TS-1" ∨ t = "TS-2" := by
      simpa [cumulativeTargets] using ht
    rcases hcases with rfl | rfl | rfl
    · exact hS
    · exact h1
    · exact h2
  unfold cumulativeOk at hok
  have hmem := mem_zip_of_getElem? ha hb
  have hcl := List.all_eq_true.mp hok (a, b) hmem
  simpa [isclose] using hcl

/-- C1 witness: on `exTable`, channel Sync, position 0, the running sum 1
matches the cumulative value 1 within the isclose tolerance. -/
theorem c1_cumulative_isclose_tolerance_witness :
    |(1 : ℚ) - 1| ≤ 1 / 10 + (1 / 100000) * |(1 : ℚ)| :=
  c1_cumulative_isclose_tolerance exTable "Sync" (by decide)
    (by with_unfolding_all rfl) 0 1 1 (by with_unfolding_all rfl) rfl

/-- The integrity check raises `notMonotonic col` exactly when `col` is
the first entry of `sorted_checks` whose column fails `nondecreasing`. -/
theorem check_notMonotonic_iff {data : List Record} {col : String} :
    data_integrity_check data = .error (.notMonotonic col) ↔
      sorted_checks.find? (fun c => ! nondecreasing (getColumn data c)) = some col := by
  unfold data_integrity_check
  cases hfind : sorted_checks.find? (fun c => ! nondecreasing (getColumn data c)) with
  | some c => simp
  | none =>
    cases hcum : cumulativeTargets.find? (fun t => ! cumulativeOk data t) with
    | some t => simp
    | none =>
      by_cases hd : hasDuplicateJulian data <;> simp [hd]

/-- C5: the integrity check raises a monotonicity violation (naming the
offending column, which is always one of the two checked columns and does
decrease) precisely when the julian-day column or the TS-2 cumulative
column decreases somewhere; the Sync and TS-1 cumulative columns are
exempt from the monotonicity check but remain subject to the
cumulative-consistency check whenever the check passes. -/
theorem c5_monotonicity_check_iff (data : List Record) :
    ((∃ col, data_integrity_check data = .error (.notMonotonic col)) ↔
      (decreasesSomewhere (getColumn data "Modified Julian day no.") ∨
        decreasesSomewhere (getColumn data "Cumulative milliamp-hours (TS-2)"))) ∧
    (∀ col, data_integrity_check data = .error (.notMonotonic col) →
      col ∈ sorted_checks ∧ decreasesSomewhere (getColumn data col)) ∧
    (data_integrity_check data = .ok () →
      cumulativeOk data "Sync" = true ∧ cumulativeOk data "TS-1" = true) := by
  refine ⟨⟨?_, ?_⟩, ?_, ?_⟩
  · rintro ⟨col, hcol⟩
    have hf := check_notMonotonic_iff.mp hcol
    have hdec : decreasesSomewhere (getColumn data col) :=
      nondecreasing_eq_false_iff.mp (by simpa using List.find?_some hf)
    have hmem : col ∈ sorted_checks := List.mem_of_find?_eq_some hf
    have hcases : col = "Modified Julian day no." ∨
        col = "Cumulative milliamp-hours (TS-2)" := by
      simpa [sorted_checks] using hmem
    rcases hcases with rfl | rfl
    · exact Or.inl hdec
    · exact Or.inr hdec
  · intro h
    by_cases hj : nondecreasing (getColumn data "Modified Julian day no.") = true
    · have ht2 : nondecreasing (getColumn data "Cumulative milliamp-hours (TS-2)") = false := by
        rcases h with hdec | hdec
        · exact absurd (nondecreasing_eq_false_iff.mpr hdec) (by simp [hj])
        · exact nondecreasing_eq_false_iff.mpr hdec
      refine ⟨"Cumulative milliamp-hours (TS-2)", check_notMonotonic_iff.mpr ?_⟩
      simp [sorted_checks, List.find?, hj, ht2]
    · have hj' : nondecreasing (getColumn data "Modified Julian day no.") = false := by
        simpa using hj
      refine ⟨"Modified Julian day no.", check_notMonotonic_iff.mpr ?_⟩
      simp [sorted_checks, List.find?, hj']
  · intro col hcol
    have hf := check_notMonotonic_iff.mp hcol
    exact ⟨List.mem_of_find?_eq_some hf,
      nondecreasing_eq_false_iff.mp (by simpa using List.find?_some hf)⟩
  · intro h
    obtain ⟨-, -, hS, h1, -, -⟩ := check_ok_iff.mp h
    exact ⟨hS, h1⟩

/-- C4 counterexample: on the conforming table `exTable` and the valid
range day 4 to day 18, weekly resampling returns a bucket labelled
Sunday day 17 although no record of the table falls in that week — empty
calendar windows are not omitted but zero-filled. -/
theorem c4_empty_window_bucket_cx :
    data_integrity_check exTable = .ok () ∧
    get_sliced_data exTable 4 18 "Weekly" false = some (.resampled exWeeklyBuckets) ∧
    exWeeklyBuckets[1]? = some ⟨17, 0, 0, 0, 0, 0, 0, 0⟩ ∧
    exTable.filter (fun r => decide (weekEnd r.date = 17)) = [] := by
  refine ⟨by with_unfolding_all rfl, by with_unfolding_all rfl, rfl, rfl⟩

/-- A resampled output has one bucket for the window of every single day
between the earliest and latest record date, regardless of whether any
record falls in that window. -/
theorem resample_keys_cover (keyFn : ℤ → ℤ) (avg : Bool) (r : Record) (rs' : List Record)
    (d : ℤ) (hlo : minDateOf r rs' ≤ d) (hhi : d ≤ maxDateOf r rs') :
    keyFn d ∈ (resampleBy keyFn avg (r :: rs')).map Bucket.key := by
  rw [resampleBy, List.map_map]
  have hkey : (Bucket.key ∘ bucketOf keyFn avg (r :: rs')) = id := by
    funext k
    rfl
  rw [hkey, List.map_id, List.mem_dedup]
  refine List.mem_map.mpr ⟨d, ?_, rfl⟩
  unfold dayRange
  refine List.mem_map.mpr ⟨(d - minDateOf r rs').toNat, ?_, ?_⟩
  · rw [List.mem_range]
    omega
  · omega

/-- Under the sum reduction, a bucket of a window with no contributing
records is zero-filled in every numeric column. -/
theorem resample_empty_window_zero_fill (keyFn : ℤ → ℤ) (rs : List Record) (b : Bucket)
    (hb : b ∈ resampleBy keyFn false rs)
    (hempty : rs.filter (fun r => decide (keyFn r.date = b.key)) = []) :
    b = ⟨b.key, 0, 0, 0, 0, 0, 0, 0⟩ := by
  cases rs with
  | nil => simp [resampleBy] at hb
  | cons r rs' =>
    rw [resampleBy] at hb
    obtain ⟨k, hk, hbk⟩ := List.mem_map.mp hb
    subst hbk
    have hempty' : (r :: rs').filter (fun x => decide (keyFn x.date = k)) = [] := hempty
    show bucketOf keyFn false (r :: rs') k = ⟨k, 0, 0, 0, 0, 0, 0, 0⟩
    unfold bucketOf
    rw [hempty']
    rfl

/-- C4 amended: on a valid range, Weekly and Monthly resampling each emit
one bucket for the calendar window of every single day spanned by the
slice — whether or not any record contributes to that window — and under
the sum reduction every bucket whose window has no contributing records
is zero-filled in all numeric columns rather than being omitted. -/
theorem c4_resample_windows_cover (data : List Record) (s e d : ℤ) (avg : Bool)
    (si ei : ℕ) (freq : String) (keyFn : ℤ → ℤ)
    (hfreq : (freq = "Weekly" ∧ keyFn = weekEnd) ∨ (freq = "Monthly" ∧ keyFn = monthEnd))
    (h1 : dateIndex data s = some si) (h2 : dateIndex data e = some ei) (h3 : si ≤ ei)
    (hlo : sliceLo ((data.drop si).take (ei + 1 - si)) ≤ d)
    (hhi : d ≤ sliceHi ((data.drop si).take (ei + 1 - si))) :
    ∃ bs, get_sliced_data data s e freq avg = some (.resampled bs) ∧
      keyFn d ∈ bs.map Bucket.key ∧
      (avg = false → ∀ b ∈ bs,
        ((data.drop si).take (ei + 1 - si)).filter
          (fun r => decide (keyFn r.date = b.key)) = [] →
        b = ⟨b.key, 0, 0, 0, 0, 0, 0, 0⟩) := by
  have hei : ei < data.length := dateIndex_lt_length h2
  have hlen : ((data.drop si).take (ei + 1 - si)).length = ei + 1 - si := by
    rw [List.length_take, List.length_drop]
    omega
  have hne : (data.drop si).take (ei + 1 - si) ≠ [] := by
    intro hnil
    rw [hnil] at hlen
    simp at hlen
    omega
  obtain ⟨r, rs', hcons⟩ := List.exists_cons_of_ne_nil hne
  refine ⟨resampleBy keyFn avg ((data.drop si).take (ei + 1 - si)), ?_, ?_, ?_⟩
  · rcases hfreq with ⟨rfl, rfl⟩ | ⟨rfl, rfl⟩
    · rw [gsd_eval data s e "Weekly" avg si ei h1 h2, if_neg (show ¬ ei < si by omega)]
      rfl
    · rw [gsd_eval data s e "Monthly" avg si ei h1 h2, if_neg (show ¬ ei < si by omega)]
      rfl
  · rw [hcons] at hlo hhi ⊢
    simp only [sliceLo] at hlo
    simp only [sliceHi] at hhi
    exact resample_keys_cover keyFn avg r rs' d hlo hhi
  · rintro rfl b hb hempty
    exact resample_empty_window_zero_fill keyFn _ b hb hempty

/-- C4 witness: day 11 lies inside the slice of `exTable` from day 4 to
day 18, so its Monthly window label appears among the returned bucket
keys, and any bucket of a window with no contributing records would be
zero-filled. -/
theorem c4_resample_windows_cover_witness :
    ∃ bs, get_sliced_data exTable 4 18 "Monthly" false = some (.resampled bs) ∧
      monthEnd 11 ∈ bs.map Bucket.key ∧
      (false = false → ∀ b ∈ bs,
        ((exTable.drop 0).take (1 + 1 - 0)).filter
          (fun r => decide (monthEnd r.date = b.key)) = [] →
        b = ⟨b.key, 0, 0, 0, 0, 0, 0, 0⟩) :=
  c4_resample_windows_cover exTable 4 18 11 false 0 1 "Monthly" monthEnd
    (Or.inr ⟨rfl, rfl⟩) rfl rfl (by omega) (by decide) (by decide)

end BeamLog
